import Mathlib

/-!
Verification of the astrodynamics propagation core against its design
specification.  The Python source is shallowly embedded: machine floats are
modelled by rationals wherever the computation is exact arithmetic, square
roots are passed in as an explicit function parameter, and the IEEE special
values needed for the degenerate-distance analysis are modelled by an
explicit sum type.  Fallible code returns Except.
-/

/-- Python int() applied to a float truncates toward zero. -/
def pyInt (q : ℚ) : ℤ :=
  if q < 0 then ⌈q⌉ else ⌊q⌋

/-- Number of elements of np.arange(start, stop, step) for step different
from zero, in exact arithmetic: ceil((stop - start) / step) clamped at 0. -/
def arangeCount (start stop step : ℚ) : ℕ :=
  (max 0 ⌈(stop - start) / step⌉).toNat

/-- Number of rows of an Except-valued integration result; 0 when it raised. -/
def exceptRows (r : Except String (List (List ℚ))) : ℕ :=
  match r with
  | .ok rows => rows.length
  | .error _ => 0

/- ## Body and BodyList (src/project/utils/data.py) -/

/-- A 3-component vector; the Vector3 pydantic type rejects any other arity,
so the embedding stores exactly three rationals. -/
structure Vec3 where
  x : ℚ
  y : ℚ
  z : ℚ
deriving DecidableEq, Repr

def Vec3.toList (v : Vec3) : List ℚ := [v.x, v.y, v.z]

/-- Body record from data.py: name, mu, r_0, v_0, radius, all optional. -/
structure Body where
  name : Option String := none
  mu : Option ℚ := none
  r_0 : Option Vec3 := none
  v_0 : Option Vec3 := none
  radius : Option ℚ := none
deriving DecidableEq, Repr

/-- BodyList.r_0 property: np.hstack of body.r_0 for each body whose r_0 is
not None; np.hstack raises a ValueError when the selection is empty, which
happens whenever no body of the list has a defined r_0. -/
def BodyList.r_0 (bl : List Body) : Except String (List ℚ) :=
  if bl.filterMap Body.r_0 = [] then
    .error "need at least one array to concatenate"
  else
    .ok (((bl.filterMap Body.r_0).map Vec3.toList).flatten)

/-- BodyList.v_0 property: np.hstack of body.v_0 for each body whose v_0 is
not None, raising like BodyList.r_0 on an empty selection. -/
def BodyList.v_0 (bl : List Body) : Except String (List ℚ) :=
  if bl.filterMap Body.v_0 = [] then
    .error "need at least one array to concatenate"
  else
    .ok (((bl.filterMap Body.v_0).map Vec3.toList).flatten)

/-- Modelled from the spec: the BodyList.y_0 derived attribute is absent from
the source tree (only its callers, Propagator.propagate and the test suite,
reference it); the spec defines it as the concatenation [r_0 then v_0] of
length 6N, so the model concatenates the two source-derived properties,
evaluating r_0 first and propagating whichever error np.hstack raises. -/
def BodyList.y_0 (bl : List Body) : Except String (List ℚ) :=
  match BodyList.r_0 bl with
  | .error e => .error e
  | .ok r =>
      match BodyList.v_0 bl with
      | .error e => .error e
      | .ok v => .ok (r ++ v)

/-- Modelled from the spec: the BodyList.mu derived attribute is absent from
the source tree (only callers reference it); the spec says bodies with
unknown mu are excluded from force contributions but still propagated, so an
undefined mu contributes the neutral value 0 to the per-body mu vector. -/
def BodyList.muVec (bl : List Body) : List ℚ :=
  bl.map (fun b => b.mu.getD 0)

/- ## Circular trail buffer (src/project/ui/__init__.py) -/

/-- Ring buffer state: backing array (time axis only; the two trailing numpy
axes are always indexed with full slices by add_points and the full read, so
one slot holds the whole per-time payload) and the head offset. -/
structure CircularTrailBuffer (α : Type) where
  array : List α
  head : ℕ
deriving DecidableEq, Repr

/-- Overwrite arr starting at index start with the values of v, the list
analogue of the numpy slice assignment arr[start : start + len(v)] = v. -/
def overwriteFrom {α : Type} (arr : List α) (start : ℕ) (v : List α) : List α :=
  arr.take start ++ v ++ arr.drop (start + v.length)

/-- CircularTrailBuffer.__setitem__ for a step-1 slice key already normalized
by slice.indices to absolute start and stop: physical start is
(head + start) mod len, and the write wraps in two pieces when needed. -/
def CircularTrailBuffer.setSlice {α : Type} (b : CircularTrailBuffer α)
    (start stop : ℕ) (v : List α) : CircularTrailBuffer α :=
  let L := b.array.length
  let len := stop - start
  let physStart := (b.head + start) % L
  let physStop := (physStart + len) % L
  if physStart < physStop then
    { b with array := overwriteFrom b.array physStart v }
  else
    let firstLen := L - physStart
    let arr1 := overwriteFrom b.array physStart (v.take firstLen)
    let arr2 := overwriteFrom arr1 0 (v.drop firstLen)
    { b with array := arr2 }

/-- CircularTrailBuffer.__getitem__ for a step-1 slice key already normalized
by slice.indices: a single physical slice when it does not wrap, otherwise
the concatenation of the tail and head pieces. -/
def CircularTrailBuffer.readSlice {α : Type} (b : CircularTrailBuffer α)
    (start stop : ℕ) : List α :=
  let L := b.array.length
  let len := stop - start
  let physStart := (b.head + start) % L
  let physStop := (physStart + len) % L
  if physStart < physStop then
    (b.array.drop physStart).take (physStop - physStart)
  else
    b.array.drop physStart ++ b.array.take physStop

/-- Full logical read, key (slice(None), :, :): slice.indices gives
start 0, stop L. -/
def CircularTrailBuffer.readFull {α : Type} (b : CircularTrailBuffer α) :
    List α :=
  b.readSlice 0 b.array.length

/-- CircularTrailBuffer._advance: head moves forward by n modulo the
capacity. -/
def CircularTrailBuffer.advance {α : Type} (b : CircularTrailBuffer α)
    (n : ℕ) : CircularTrailBuffer α :=
  { b with head := (b.head + n) % b.array.length }

/-- CircularTrailBuffer.add_points: writes the points through the slice
key [-n:, :, :] (slice.indices turns -n into L - n for n at most L) and then
advances the head by n. -/
def CircularTrailBuffer.add_points {α : Type} (b : CircularTrailBuffer α)
    (points : List α) : CircularTrailBuffer α :=
  let n := points.length
  (b.setSlice (b.array.length - n) b.array.length points).advance n

/- ## Siminteg cache file and calculate_integrals cache path
(src/project/simulation/integrals.py, src/project/utils/siminteg.py) -/

/-- One 8-byte word of a .siminteg file: either one of the 8 header words
(64-byte header: magic, version, steps, integ_dim, dt, padding) or one
float64 payload value.  The tag records that a word position holds header
bytes, which a float64 view over it would misinterpret. -/
inductive SimintegWord where
  | header : ℕ → SimintegWord
  | value : ℚ → SimintegWord
deriving DecidableEq, Repr

/-- write_siminteg: validates that the filename steps field equals the data
row count minus 1, then writes the 64-byte header followed by the flat
float64 payload. -/
def write_siminteg (stepsF : ℤ) (data : List (List ℚ)) :
    Except String (List SimintegWord) :=
  if stepsF ≠ (data.length : ℤ) - 1 then
    .error "actual simulation steps do not match filename"
  else
    .ok ((List.range 8).map SimintegWord.header ++
      (data.flatten.map SimintegWord.value))

/-- Cache-hit read in calculate_integrals: np.memmap(cache_file,
dtype=float64, mode=r, shape=(n_steps, 4)) with no offset argument, so the
view starts at byte 0 of the file, i.e. at the first header word, and covers
the first 4 times n_steps words. -/
def integralsCacheRead (file : List SimintegWord) (nSteps : ℕ) :
    List SimintegWord :=
  file.take (4 * nSteps)

/-- calculate_integrals, cache logic only: the per-step energy and angular
momentum loop is passed in as the already-computed (n_steps, 4) array
computed, since the claim under study concerns the cache round trip.  With a
cache file present the function memmaps it from offset 0 and returns that
view; with no cache it returns the computed array and persists it with
write_siminteg.  Result: the returned word list and the cache file after the
call. -/
def calculate_integrals (nSteps : ℕ) (computed : List (List ℚ))
    (stepsF : ℤ) (cacheFile : Option (List SimintegWord)) :
    Except String (List SimintegWord × Option (List SimintegWord)) :=
  match cacheFile with
  | some file => .ok (integralsCacheRead file nSteps, some file)
  | none =>
      match write_siminteg stepsF computed with
      | .error e => .error e
      | .ok file => .ok (computed.flatten.map SimintegWord.value, some file)

/- ## Simstate and siminteg header and filename validation
(src/project/utils/simstate.py, src/project/utils/siminteg.py) -/

def SIMSTATE_MAGIC : String := "SIMSTATE"

def SIMSTATE_VERSION : ℕ := 1

def SIMINTEG_MAGIC : String := "SIMINTEG"

def SIMINTEG_VERSION : ℕ := 2

/-- The fixed 64-byte .simstate header: magic, version, steps (including the
initial state), bodies, state dimension, dt. -/
structure SimstateHeader where
  magic : String
  version : ℕ
  steps : ℕ
  bodies : ℕ
  stateDim : ℕ
  dt : ℚ
deriving DecidableEq, Repr

/-- The fixed 64-byte .siminteg header: magic, version, steps, integ
dimension, dt. -/
structure SimintegHeader where
  magic : String
  version : ℕ
  steps : ℕ
  integDim : ℕ
  dt : ℚ
deriving DecidableEq, Repr

/-- Fields encoded in a simstate or siminteg filename stem
name__dt__steps, after int() parsing of the dt and steps components. -/
structure ParsedFilename where
  name : String
  dtField : ℤ
  stepsField : ℤ
deriving DecidableEq, Repr

/-- simstate read_header: rejects a wrong magic token, then a wrong version,
then returns the header fields. -/
def simstate_read_header (h : SimstateHeader) :
    Except String (ℕ × ℕ × ℕ × ℚ) :=
  if h.magic ≠ SIMSTATE_MAGIC then .error "Not a SIMSTATE file"
  else if h.version ≠ SIMSTATE_VERSION then .error "File version mismatch"
  else .ok (h.steps, h.bodies, h.stateDim, h.dt)

/-- validate_simstate_file: parses the filename, reads the header, and
rejects the file when the filename dt differs from int(header dt) or the
filename steps differ from header steps minus 1. -/
def validate_simstate_file (fn : ParsedFilename) (h : SimstateHeader) :
    Except String (ℕ × ℕ × ℕ × ℚ) :=
  match simstate_read_header h with
  | .error e => .error e
  | .ok (steps, bodies, stateDim, dt) =>
      if fn.dtField ≠ pyInt dt ∨ fn.stepsField ≠ (steps : ℤ) - 1 then
        .error "Filename does not match file header"
      else
        .ok (steps, bodies, stateDim, dt)

/-- siminteg read_header: same discipline with the SIMINTEG magic and
version 2. -/
def siminteg_read_header (h : SimintegHeader) : Except String (ℕ × ℕ × ℚ) :=
  if h.magic ≠ SIMINTEG_MAGIC then .error "Not a SIMSTATE file"
  else if h.version ≠ SIMINTEG_VERSION then .error "File version mismatch"
  else .ok (h.steps, h.integDim, h.dt)

/-- validate_siminteg_file: filename cross-check identical to the simstate
one. -/
def validate_siminteg_file (fn : ParsedFilename) (h : SimintegHeader) :
    Except String (ℕ × ℕ × ℚ) :=
  match siminteg_read_header h with
  | .error e => .error e
  | .ok (steps, integDim, dt) =>
      if fn.dtField ≠ pyInt dt ∨ fn.stepsField ≠ (steps : ℤ) - 1 then
        .error "Filename does not match file header"
      else
        .ok (steps, integDim, dt)

/- ## IEEE-style value domain for the degenerate-distance analysis
(float64 special values; signed zero is not distinguished, which is
irrelevant to the computations studied here) -/

/-- A float64 value: a finite (exactly representable) number modelled by a
rational, positive infinity, negative infinity, or NaN. -/
inductive FloatVal where
  | fin : ℚ → FloatVal
  | inf : FloatVal
  | neginf : FloatVal
  | nan : FloatVal
deriving DecidableEq, Repr

/-- IEEE addition on the value domain. -/
def FloatVal.add : FloatVal → FloatVal → FloatVal
  | .nan, _ => .nan
  | _, .nan => .nan
  | .inf, .neginf => .nan
  | .neginf, .inf => .nan
  | .inf, _ => .inf
  | _, .inf => .inf
  | .neginf, _ => .neginf
  | _, .neginf => .neginf
  | .fin a, .fin b => .fin (a + b)

/-- IEEE negation on the value domain. -/
def FloatVal.neg : FloatVal → FloatVal
  | .nan => .nan
  | .inf => .neginf
  | .neginf => .inf
  | .fin a => .fin (-a)

/-- IEEE subtraction: x - y = x + (-y). -/
def FloatVal.sub (a b : FloatVal) : FloatVal :=
  a.add b.neg

/-- IEEE multiplication: zero times an infinity is NaN. -/
def FloatVal.mul : FloatVal → FloatVal → FloatVal
  | .nan, _ => .nan
  | _, .nan => .nan
  | .inf, .inf => .inf
  | .inf, .neginf => .neginf
  | .neginf, .inf => .neginf
  | .neginf, .neginf => .inf
  | .inf, .fin b => if b = 0 then .nan else if 0 < b then .inf else .neginf
  | .fin a, .inf => if a = 0 then .nan else if 0 < a then .inf else .neginf
  | .neginf, .fin b => if b = 0 then .nan else if 0 < b then .neginf else .inf
  | .fin a, .neginf => if a = 0 then .nan else if 0 < a then .neginf else .inf
  | .fin a, .fin b => .fin (a * b)

/-- IEEE division: a nonzero finite number divided by zero is a signed
infinity, zero divided by zero is NaN, a finite number divided by an
infinity is zero. -/
def FloatVal.div : FloatVal → FloatVal → FloatVal
  | .nan, _ => .nan
  | _, .nan => .nan
  | .inf, .inf => .nan
  | .inf, .neginf => .nan
  | .neginf, .inf => .nan
  | .neginf, .neginf => .nan
  | .inf, .fin b => if 0 ≤ b then .inf else .neginf
  | .neginf, .fin b => if 0 ≤ b then .neginf else .inf
  | .fin _, .inf => .fin 0
  | .fin _, .neginf => .fin 0
  | .fin a, .fin b =>
      if b = 0 then (if a = 0 then .nan else if 0 < a then .inf else .neginf)
      else .fin (a / b)

instance : Add FloatVal := ⟨FloatVal.add⟩

instance : Neg FloatVal := ⟨FloatVal.neg⟩

instance : Sub FloatVal := ⟨FloatVal.sub⟩

instance : Mul FloatVal := ⟨FloatVal.mul⟩

instance : Div FloatVal := ⟨FloatVal.div⟩

instance : Zero FloatVal := ⟨.fin 0⟩

instance : One FloatVal := ⟨.fin 1⟩

/-- np.sqrt on the value domain: rational square root is a parameter
elsewhere, but for evaluating concrete degenerate cases only the values at 0
and at infinity matter; finite nonzero inputs are mapped through the given
rational approximation. -/
def floatSqrt (approx : ℚ → ℚ) : FloatVal → FloatVal
  | .fin a => if a < 0 then .nan else .fin (approx a)
  | .inf => .inf
  | .neginf => .nan
  | .nan => .nan

/-- np.allclose for one component pair: absolute(a - b) at most
atol + rtol * absolute(b), false whenever a NaN is involved, which is how the
agreement contract of the spec reads on each output component. -/
def floatIsClose (rtol atol : ℚ) : FloatVal → FloatVal → Bool
  | .fin a, .fin b => decide (|a - b| ≤ atol + rtol * |b|)
  | .inf, .inf => true
  | .neginf, .neginf => true
  | _, _ => false

/- ## Force kernels (src/project/simulation/model.py), generic over the
scalar domain so that one embedding serves both the exact rational analysis
and the IEEE value domain -/

/-- point_mass_numpy: writes velocities to the first half of out, then the
vectorized pairwise accelerations.  The square root is the sqrtf parameter
and np.inf (written into the diagonal of dist_sq by np.fill_diagonal) is the
infVal parameter: FloatVal.inf at the float domain; at the exact rational
domain the diagonal acceleration term is multiplied by the zero displacement
r_ii, so every instantiation gives it value zero there. -/
def point_mass_numpy {α : Type} [Add α] [Sub α] [Mul α] [Div α] [Zero α]
    [One α] (sqrtf : α → α) (infVal : α) (state : List α) (n : ℕ)
    (mu : List α) : List α :=
  let r : ℕ → ℕ → α := fun i c => state.getD (3 * i + c) 0
  let rij : ℕ → ℕ → ℕ → α := fun i j c => r j c - r i c
  let dist_sq : ℕ → ℕ → α := fun i j =>
    if i = j then infVal
    else rij i j 0 * rij i j 0 + rij i j 1 * rij i j 1 +
      rij i j 2 * rij i j 2
  let inv_r3 : ℕ → ℕ → α := fun i j =>
    1 / (dist_sq i j * sqrtf (dist_sq i j))
  let a : ℕ → ℕ → α := fun i c =>
    ((List.range n).map (fun j => rij i j c * (mu.getD j 0 * inv_r3 i j))).sum
  (List.range (3 * n)).map (fun k => state.getD (3 * n + k) 0) ++
    ((List.range n).map (fun i => (List.range 3).map (a i))).flatten

/-- Sequential in-place additive updates out[idx] = out[idx] + delta, the
form every acceleration accumulation of the numba kernel takes (the
subtraction assignments carry a negated delta). -/
def applyBumps {α : Type} [Add α] [Zero α] (init : List α)
    (bumps : List (ℕ × α)) : List α :=
  bumps.foldl (fun out p => out.set p.1 (out.getD p.1 0 + p.2)) init

/-- The six buffer updates performed by point_mass_numba for one ordered
pair i < j, in source order: the three components of body i receive
-mu_j * f, the three of body j receive +mu_i * f. -/
def numbaPairBumps {α : Type} [Add α] [Sub α] [Neg α] [Mul α] [Div α]
    [Zero α] [One α] (sqrtf : α → α) (state : List α) (n : ℕ) (mu : List α)
    (i j : ℕ) : List (ℕ × α) :=
  let dx := state.getD (3 * i) 0 - state.getD (3 * j) 0
  let dy := state.getD (3 * i + 1) 0 - state.getD (3 * j + 1) 0
  let dz := state.getD (3 * i + 2) 0 - state.getD (3 * j + 2) 0
  let r2 := dx * dx + dy * dy + dz * dz
  let inv_r := 1 / sqrtf r2
  let inv_r3 := inv_r * inv_r * inv_r
  let fx := dx * inv_r3
  let fy := dy * inv_r3
  let fz := dz * inv_r3
  let mi := mu.getD i 0
  let mj := mu.getD j 0
  [(3 * i + 3 * n, -(mj * fx)), (3 * i + 1 + 3 * n, -(mj * fy)),
   (3 * i + 2 + 3 * n, -(mj * fz)), (3 * j + 3 * n, mi * fx),
   (3 * j + 1 + 3 * n, mi * fy), (3 * j + 2 + 3 * n, mi * fz)]

/-- point_mass_numba: copies velocities, zeroes the acceleration half, then
runs the serial symmetric double loop over pairs i < j, applying the six
updates of each pair in order. -/
def point_mass_numba {α : Type} [Add α] [Sub α] [Neg α] [Mul α] [Div α]
    [Zero α] [One α] (sqrtf : α → α) (state : List α) (n : ℕ)
    (mu : List α) : List α :=
  let init := (List.range (3 * n)).map (fun k => state.getD (k + 3 * n) 0) ++
    List.replicate (3 * n) (0 : α)
  applyBumps init
    (((List.range n).map (fun i =>
      (List.range' (i + 1) (n - (i + 1))).map
        (numbaPairBumps sqrtf state n mu i))).flatten.flatten)

/-- The squared pairwise distance both kernels evaluate for two distinct
bodies, written with the orientation of the numpy kernel (r_j - r_i); the
scalar-loop kernel computes the same value from the opposite orientation. -/
def dSq (state : List ℚ) (i j : ℕ) : ℚ :=
  (state.getD (3 * j + 0) 0 - state.getD (3 * i + 0) 0) *
      (state.getD (3 * j + 0) 0 - state.getD (3 * i + 0) 0) +
    (state.getD (3 * j + 1) 0 - state.getD (3 * i + 1) 0) *
      (state.getD (3 * j + 1) 0 - state.getD (3 * i + 1) 0) +
    (state.getD (3 * j + 2) 0 - state.getD (3 * i + 2) 0) *
      (state.getD (3 * j + 2) 0 - state.getD (3 * i + 2) 0)

/- ## Integrator (src/project/simulation/integrator.py) and the numba fused
RK4 backend (src/project/simulation/model.py) -/

/-- Elementwise vector sum, as numpy broadcasting of + over equal shapes. -/
def vadd (a b : List ℚ) : List ℚ :=
  List.zipWith (· + ·) a b

/-- One iteration of the Integrator._rk4 loop body, with the exact scalar
factor spellings of the source: k1 * time_step / 2, k3 * time_step, and
time_step / 6 times the left-associated weighted sum. -/
def rk4Step (f : List ℚ → List ℚ) (dt : ℚ) (y : List ℚ) : List ℚ :=
  let k1 := f y
  let k2 := f (vadd y (k1.map (fun x => x * dt / 2)))
  let k3 := f (vadd y (k2.map (fun x => x * dt / 2)))
  let k4 := f (vadd y (k3.map (fun x => x * dt)))
  vadd y ((vadd (vadd (vadd k1 (k2.map (fun x => 2 * x)))
    (k3.map (fun x => 2 * x))) k4).map (fun x => dt / 6 * x))

/-- The trajectory array of the generic RK4 loop: row i is the i-th iterate
of the step function on the initial state. -/
def rk4Rows (f : List ℚ → List ℚ) (dt : ℚ) (steps : ℕ) (y0 : List ℚ) :
    List (List ℚ) :=
  (List.range steps).map (fun i => (rk4Step f dt)^[i] y0)

/-- Integrator._rk4: the row count is the size of
np.arange(0, stop_time + time_step, time_step); a zero time step makes
np.arange raise, and a zero row count makes the assignment of row 0
raise an index error; otherwise the loop fills the rows. -/
def Integrator_rk4_numpy (f : List ℚ → List ℚ) (dt stop : ℚ)
    (y0 : List ℚ) : Except String (List (List ℚ)) :=
  if dt = 0 then .error "arange: cannot compute length with zero step"
  else
    let steps := arangeCount 0 (stop + dt) dt
    if steps = 0 then .error "index 0 is out of bounds for axis 0 with size 0"
    else .ok (rk4Rows f dt steps y0)

/-- One iteration of the _rk4_numba loop body, with the numba source scalar
spellings: 0.5 * time_step * k, time_step * k3, (time_step / 6.0) times the
left-associated weighted sum. -/
def rk4StepNumba (f : List ℚ → List ℚ) (dt : ℚ) (y : List ℚ) : List ℚ :=
  let k1 := f y
  let k2 := f (vadd y (k1.map (fun x => 0.5 * dt * x)))
  let k3 := f (vadd y (k2.map (fun x => 0.5 * dt * x)))
  let k4 := f (vadd y (k3.map (fun x => dt * x)))
  vadd y ((vadd (vadd (vadd k1 (k2.map (fun x => 2 * x)))
    (k3.map (fun x => 2 * x))) k4).map (fun x => dt / 6 * x))

/-- The rows produced by _rk4_numba for a requested total row count. -/
def rk4NumbaRows (f : List ℚ → List ℚ) (dt : ℚ) (steps : ℕ)
    (y0 : List ℚ) : List (List ℚ) :=
  (List.range steps).map (fun i => (rk4StepNumba f dt)^[i] y0)

/-- NumbaPointMass._rk4_backend with progress reporting disabled: the row
count is int(stop_time / time_step) + 1 and _rk4_numba fills the rows. -/
def numba_rk4_backend (f : List ℚ → List ℚ) (y0 : List ℚ) (dt stop : ℚ) :
    List (List ℚ) :=
  rk4NumbaRows f dt ((pyInt (stop / dt)).toNat + 1) y0

/-- A force kernel as the integrator sees it: the evaluate call plus the
optional fused RK4 capability probed by the RK4Capable isinstance check. -/
structure IntegKernel where
  call : List ℚ → List ℚ
  rk4_backend : Option (List ℚ → ℚ → ℚ → List (List ℚ))

/-- Integrator.rk4 dispatch: when the kernel is RK4Capable the whole
integration is delegated to its backend and the result returned unchanged,
otherwise the generic numpy loop runs. -/
def Integrator_rk4 (func : IntegKernel) (state : List ℚ) (dt stop : ℚ) :
    Except String (List (List ℚ)) :=
  match func.rk4_backend with
  | some backend => .ok (backend state dt stop)
  | none => Integrator_rk4_numpy func.call dt stop state

/- ## Propagator (src/project/simulation/propagator.py) -/

/-- Outcome of a propagate call: the integrated trajectory and whether the
destination file was written (write_simstate runs only on the success path,
after the whole integration). -/
structure PropagateResult where
  trajectory : List (List ℚ)
  fileWritten : Bool
deriving DecidableEq, Repr

/-- Propagator.propagate: builds y_0 from the body list (any np.hstack error
in the derived properties surfaces here, before any integration), runs the
selected integrator with the force model, and only then writes the simstate
file when a filename is given.  No deliberate validation of the time step or
of the body list happens anywhere on the way in. -/
def Propagator.propagate (func : IntegKernel) (time_step stop_time : ℚ)
    (bl : List Body) (filename : Bool) : Except String PropagateResult :=
  match BodyList.y_0 bl with
  | .error e => .error e
  | .ok y0 =>
      match Integrator_rk4 func y0 time_step stop_time with
      | .error e => .error e
      | .ok y => .ok ⟨y, filename⟩

/-- NumpyPointMass as an integrator kernel for a fixed body list: evaluate
delegates to point_mass_numpy with n and mu derived from the list, and there
is no fused backend. -/
def numpyPointMassKernel (sqrtf : ℚ → ℚ) (bl : List Body) : IntegKernel :=
  ⟨fun y => point_mass_numpy sqrtf 0 y bl.length (BodyList.muVec bl), none⟩

/- ## Simstate views (src/project/utils/simstate.py) -/

/-- A normalized index on one axis: an integer or a step-1 slice with an
optional stop (None meaning the axis length). -/
inductive PyIdx where
  | int : ℕ → PyIdx
  | slice : ℕ → Option ℕ → PyIdx
deriving DecidableEq, Repr

/-- Indices selected by a key on an axis of the given length; an integer is
promoted to the slice (i, i + 1) exactly as _RVView.__getitem__ does. -/
def pySelect (k : PyIdx) (len : ℕ) : List ℕ :=
  match k with
  | .int i => (List.range len).filter (fun x => decide (i ≤ x ∧ x < i + 1))
  | .slice s t =>
      (List.range len).filter (fun x => decide (s ≤ x ∧ x < t.getD len))

/-- Which triple of the 6-wide state row a view selects. -/
inductive RV where
  | r
  | v
deriving DecidableEq, Repr

/-- _RVView.__getitem__ over the memory map of shape
(steps, bodies, 6): normalizes the key to (step, body), promotes integers to
slices, and selects slice(0, 3) or slice(3, 6) on the last axis. -/
def RVView.getitem (mm : List (List (List ℚ))) (rv : RV)
    (step body : PyIdx) : List (List (List ℚ)) :=
  let lastF : List ℚ → List ℚ := fun row =>
    match rv with
    | .r => row.take 3
    | .v => (row.drop 3).take 3
  (pySelect step mm.length).map (fun s =>
    let stepMat := mm.getD s []
    (pySelect body stepMat.length).map (fun b => lastF (stepMat.getD b [])))

/-- np.transpose(data, (0, 2, 1)) on a rectangular 3-dimensional array:
axis 1 and axis 2 are exchanged, the axis-2 extent read off the first row. -/
def transpose021 (d : List (List (List ℚ))) : List (List (List ℚ)) :=
  d.map (fun m =>
    (List.range (m.headD []).length).map (fun c =>
      m.map (fun row => row.getD c 0)))

/-- _RVVisView.__getitem__: the base view result transposed with axis order
(0, 2, 1). -/
def RVVisView.getitem (mm : List (List (List ℚ))) (rv : RV)
    (step body : PyIdx) : List (List (List ℚ)) :=
  transpose021 (RVView.getitem mm rv step body)

/-- simstate_view_from_state_view: reinterprets each flat 6N state row as N
6-wide body rows, position triple then velocity triple. -/
def simstate_view_from_state_view (y : List (List ℚ)) (n : ℕ) :
    List (List (List ℚ)) :=
  y.map (fun row =>
    (List.range n).map (fun b =>
      ((row.take (3 * n)).drop (3 * b)).take 3 ++
        ((row.drop (3 * n)).drop (3 * b)).take 3))

/-- The three flat state rows the repository test suite builds the
test__1__2.simstate file from: row s holds the values 12 s to 12 s + 11. -/
def mmTestRows : List (List ℚ) :=
  (List.range 3).map (fun s => (List.range 12).map (fun k => ((12 * s + k : ℕ) : ℚ)))

/-- The (3, 2, 6) canonical test array. -/
def mmTest : List (List (List ℚ)) :=
  simstate_view_from_state_view mmTestRows 2

/-- Whether an Except result is a success. -/
def exceptIsOk {ε β : Type} (e : Except ε β) : Bool :=
  match e with
  | .ok _ => true
  | .error _ => false

instance {ε β : Type} [DecidableEq ε] [DecidableEq β] :
    DecidableEq (Except ε β) := fun x y =>
  match x, y with
  | .error a, .error b =>
      match decEq a b with
      | isTrue h => isTrue (by rw [h])
      | isFalse h => isFalse (fun he => h (Except.error.inj he))
  | .ok a, .ok b =>
      match decEq a b with
      | isTrue h => isTrue (by rw [h])
      | isFalse h => isFalse (fun he => h (Except.ok.inj he))
  | .error _, .ok _ => isFalse (fun he => Except.noConfusion he)
  | .ok _, .error _ => isFalse (fun he => Except.noConfusion he)

/- ## Theorems -/

theorem length_flatten_vec3 (xs : List Vec3) :
    ((xs.map Vec3.toList).flatten).length = 3 * xs.length := by
  induction xs with
  | nil => simp
  | cons x xs ih =>
      simp [ih, Vec3.toList]
      omega

theorem filterMap_length_countP (bl : List Body) :
    (bl.filterMap Body.r_0).length = bl.countP (fun b => b.r_0.isSome) := by
  induction bl with
  | nil => simp
  | cons b bl ih =>
      cases h : b.r_0 with
      | none => simp [List.filterMap_cons, List.countP_cons, h, ih]
      | some v => simp [List.filterMap_cons, List.countP_cons, h, ih]

/-- C10 counterexample: a single body with undefined r_0 leaves the hstack
selection empty (d = 0), and the r_0 property raises instead of returning a
length-0 flat vector. -/
theorem C10_counterexample :
    BodyList.r_0 [({} : Body)] =
      .error "need at least one array to concatenate" := by
  rfl

/-- C10 amended: when at least one body of the list has a defined r_0, the
r_0 property is assembled only from the bodies whose r_0 is defined: it
returns a flat vector whose length is 3 times the number of such bodies, not
3 times the number of all bodies; with no body defining r_0 the underlying
np.hstack raises instead of producing an empty vector. -/
theorem C10_r0_skips_undefined (bl : List Body)
    (h : ∃ b ∈ bl, b.r_0.isSome) :
    ∃ v, BodyList.r_0 bl = .ok v ∧
      v.length = 3 * bl.countP (fun b => b.r_0.isSome) := by
  obtain ⟨b, hb, hsome⟩ := h
  obtain ⟨w, hw⟩ := Option.isSome_iff_exists.mp hsome
  have hne : bl.filterMap Body.r_0 ≠ [] := by
    intro hnil
    have hmem : w ∈ bl.filterMap Body.r_0 := List.mem_filterMap.mpr ⟨b, hb, hw⟩
    rw [hnil] at hmem
    exact List.not_mem_nil w hmem
  rw [BodyList.r_0, if_neg hne]
  exact ⟨_, rfl, by rw [length_flatten_vec3, filterMap_length_countP]⟩

/-- Closed instance of C10 amended: one body with defined r_0 and one
without give a length-3 vector, 3 times the one defined body rather than the
two bodies of the list. -/
theorem C10_r0_skips_undefined_witness :
    (∃ b ∈ [({ r_0 := some ⟨1, 2, 3⟩ } : Body), ({} : Body)], b.r_0.isSome) ∧
      ∃ v, BodyList.r_0 [({ r_0 := some ⟨1, 2, 3⟩ } : Body), ({} : Body)] =
          .ok v ∧
        v.length = 3 * ([({ r_0 := some ⟨1, 2, 3⟩ } : Body),
          ({} : Body)].countP (fun b => b.r_0.isSome)) :=
  ⟨by decide, C10_r0_skips_undefined _ (by decide)⟩

theorem filterMap_eq_map_of_all_some (bl : List Body)
    (sel : Body → Option Vec3) (h : ∀ b ∈ bl, (sel b).isSome) :
    bl.filterMap sel = bl.map (fun b => (sel b).getD ⟨0, 0, 0⟩) := by
  induction bl with
  | nil => simp
  | cons b bl ih =>
      have hb : (sel b).isSome := h b (by simp)
      obtain ⟨v, hv⟩ := Option.isSome_iff_exists.mp hb
      simp only [List.filterMap_cons, List.map_cons, hv, Option.getD_some]
      exact congrArg (v :: ·) (ih (fun x hx => h x (List.mem_cons_of_mem _ hx)))

/-- C1 counterexample: at the empty body list (N = 0, so vacuously every
body has defined initial conditions) the y_0 attribute does not exist as a
length-0 concatenation: the r_0 hstack selection is empty and the property
raises. -/
theorem C1_counterexample :
    BodyList.y_0 ([] : List Body) =
      .error "need at least one array to concatenate" := by
  rfl

/-- C1 amended: when the body list is nonempty and every body of the list
has defined initial conditions, the (spec-modelled) y_0 attribute builds and
is the body-major flattening of the initial positions of all bodies followed
by the body-major flattening of the initial velocities, of total length 6 N;
at the empty body list the underlying np.hstack raises instead. -/
theorem C1_y0_concatenation (bl : List Body) (hne : bl ≠ [])
    (h : ∀ b ∈ bl, b.r_0.isSome ∧ b.v_0.isSome) :
    ∃ y, BodyList.y_0 bl = .ok y ∧
      y = ((bl.map (fun b => (b.r_0.getD ⟨0, 0, 0⟩).toList)).flatten ++
        (bl.map (fun b => (b.v_0.getD ⟨0, 0, 0⟩).toList)).flatten) ∧
      y.length = 6 * bl.length := by
  have hr : bl.filterMap Body.r_0 =
      bl.map (fun b => b.r_0.getD ⟨0, 0, 0⟩) :=
    filterMap_eq_map_of_all_some bl Body.r_0 (fun b hb => (h b hb).1)
  have hv : bl.filterMap Body.v_0 =
      bl.map (fun b => b.v_0.getD ⟨0, 0, 0⟩) :=
    filterMap_eq_map_of_all_some bl Body.v_0 (fun b hb => (h b hb).2)
  have hrne : bl.filterMap Body.r_0 ≠ [] := by
    rw [hr]
    simpa using hne
  have hvne : bl.filterMap Body.v_0 ≠ [] := by
    rw [hv]
    simpa using hne
  refine ⟨((bl.filterMap Body.r_0).map Vec3.toList).flatten ++
      ((bl.filterMap Body.v_0).map Vec3.toList).flatten, ?_, ?_, ?_⟩
  · simp only [BodyList.y_0, BodyList.r_0, BodyList.v_0, if_neg hrne,
      if_neg hvne]
  · rw [hr, hv, List.map_map, List.map_map]
    rfl
  · rw [List.length_append, length_flatten_vec3, length_flatten_vec3, hr, hv,
      List.length_map, List.length_map]
    omega

/-- Closed instance of C1 amended at a concrete two-body list. -/
theorem C1_y0_concatenation_witness :
    ([({ mu := some 1, r_0 := some ⟨1, 2, 3⟩, v_0 := some ⟨4, 5, 6⟩ } : Body),
        ({ r_0 := some ⟨7, 8, 9⟩, v_0 := some ⟨10, 11, 12⟩ } : Body)] ≠
      ([] : List Body)) ∧
    (∀ b ∈ [({ mu := some 1, r_0 := some ⟨1, 2, 3⟩, v_0 := some ⟨4, 5, 6⟩ } : Body),
            ({ r_0 := some ⟨7, 8, 9⟩, v_0 := some ⟨10, 11, 12⟩ } : Body)],
        b.r_0.isSome ∧ b.v_0.isSome) ∧
      ∃ y, BodyList.y_0 [({ mu := some 1, r_0 := some ⟨1, 2, 3⟩, v_0 := some ⟨4, 5, 6⟩ } : Body),
            ({ r_0 := some ⟨7, 8, 9⟩, v_0 := some ⟨10, 11, 12⟩ } : Body)] = .ok y ∧
        y = (([({ mu := some 1, r_0 := some ⟨1, 2, 3⟩, v_0 := some ⟨4, 5, 6⟩ } : Body),
            ({ r_0 := some ⟨7, 8, 9⟩, v_0 := some ⟨10, 11, 12⟩ } : Body)].map
              (fun b => (b.r_0.getD ⟨0, 0, 0⟩).toList)).flatten ++
          ([({ mu := some 1, r_0 := some ⟨1, 2, 3⟩, v_0 := some ⟨4, 5, 6⟩ } : Body),
            ({ r_0 := some ⟨7, 8, 9⟩, v_0 := some ⟨10, 11, 12⟩ } : Body)].map
              (fun b => (b.v_0.getD ⟨0, 0, 0⟩).toList)).flatten) ∧
        y.length = 6 * ([({ mu := some 1, r_0 := some ⟨1, 2, 3⟩, v_0 := some ⟨4, 5, 6⟩ } : Body),
            ({ r_0 := some ⟨7, 8, 9⟩, v_0 := some ⟨10, 11, 12⟩ } : Body)].length) :=
  ⟨by simp, by decide, C1_y0_concatenation _ (by simp) (by decide)⟩

/-- C2: evaluation of the trail buffer at the failing input of the claim: a
capacity-2 buffer receives the point 1 and then the point 2 through
add_points, and the full logical read returns them newest first, not in
chronological order. -/
theorem C2_add_points_stale_order :
    (((CircularTrailBuffer.mk ([0, 0] : List ℕ) 0).add_points
        [1]).add_points [2]).readFull = [2, 1] ∧
      ([2, 1] : List ℕ) ≠ [1, 2] := by
  exact ⟨rfl, by decide⟩

/-- C3: evaluation of calculate_integrals at the failing input: with one
step and computed integrals row 1, 2, 3, 4, the first call (no cache)
returns the computed values and writes the header-prefixed cache file; the
second call (cache present) memory-maps the file from offset 0 and returns
the four header words instead of the four values. -/
theorem C3_cache_reread_differs :
    calculate_integrals 1 [[1, 2, 3, 4]] 0 none =
      .ok ([SimintegWord.value 1, SimintegWord.value 2, SimintegWord.value 3,
        SimintegWord.value 4],
        some ((List.range 8).map SimintegWord.header ++
          [SimintegWord.value 1, SimintegWord.value 2, SimintegWord.value 3,
            SimintegWord.value 4])) ∧
      calculate_integrals 1 [[1, 2, 3, 4]] 0
          (some ((List.range 8).map SimintegWord.header ++
            [SimintegWord.value 1, SimintegWord.value 2, SimintegWord.value 3,
              SimintegWord.value 4])) =
        .ok ([SimintegWord.header 0, SimintegWord.header 1,
          SimintegWord.header 2, SimintegWord.header 3],
          some ((List.range 8).map SimintegWord.header ++
            [SimintegWord.value 1, SimintegWord.value 2, SimintegWord.value 3,
              SimintegWord.value 4])) ∧
      ([SimintegWord.header 0, SimintegWord.header 1, SimintegWord.header 2,
        SimintegWord.header 3] ≠
        [SimintegWord.value 1, SimintegWord.value 2, SimintegWord.value 3,
          SimintegWord.value 4]) := by
  refine ⟨by rfl, by rfl, by decide⟩

/-- C5: the simstate and siminteg readers accept a file exactly when the
magic token and version match and the filename-encoded dt and steps agree
with the header through dt_filename = int(dt_header) and
steps_filename = steps_header - 1; any disagreement leaves the Except in the
error state, so no data view is returned. -/
theorem C5_header_filename_crosscheck :
    (∀ (fn : ParsedFilename) (h : SimstateHeader),
      exceptIsOk (validate_simstate_file fn h) = true ↔
        (h.magic = SIMSTATE_MAGIC ∧ h.version = SIMSTATE_VERSION ∧
          fn.dtField = pyInt h.dt ∧ fn.stepsField = (h.steps : ℤ) - 1)) ∧
    (∀ (fn : ParsedFilename) (h : SimintegHeader),
      exceptIsOk (validate_siminteg_file fn h) = true ↔
        (h.magic = SIMINTEG_MAGIC ∧ h.version = SIMINTEG_VERSION ∧
          fn.dtField = pyInt h.dt ∧ fn.stepsField = (h.steps : ℤ) - 1)) := by
  constructor
  · intro fn h
    by_cases hm : h.magic = SIMSTATE_MAGIC
    · by_cases hv : h.version = SIMSTATE_VERSION
      · by_cases hd : fn.dtField = pyInt h.dt
        · by_cases hs : fn.stepsField = (h.steps : ℤ) - 1
          · simp [validate_simstate_file, simstate_read_header, exceptIsOk,
              hm, hv, hd, hs]
          · simp [validate_simstate_file, simstate_read_header, exceptIsOk,
              hm, hv, hd, hs]
        · simp [validate_simstate_file, simstate_read_header, exceptIsOk,
            hm, hv, hd]
      · simp [validate_simstate_file, simstate_read_header, exceptIsOk,
          hm, hv]
    · simp [validate_simstate_file, simstate_read_header, exceptIsOk, hm]
  · intro fn h
    by_cases hm : h.magic = SIMINTEG_MAGIC
    · by_cases hv : h.version = SIMINTEG_VERSION
      · by_cases hd : fn.dtField = pyInt h.dt
        · by_cases hs : fn.stepsField = (h.steps : ℤ) - 1
          · simp [validate_siminteg_file, siminteg_read_header, exceptIsOk,
              hm, hv, hd, hs]
          · simp [validate_siminteg_file, siminteg_read_header, exceptIsOk,
              hm, hv, hd, hs]
        · simp [validate_siminteg_file, siminteg_read_header, exceptIsOk,
            hm, hv, hd]
      · simp [validate_siminteg_file, siminteg_read_header, exceptIsOk,
          hm, hv]
    · simp [validate_siminteg_file, siminteg_read_header, exceptIsOk, hm]

/-- Closed instance of C5: a matching simstate header passes validation, and
one with a mismatched steps field fails. -/
theorem C5_header_filename_crosscheck_witness :
    exceptIsOk (validate_simstate_file ⟨"a", 1, 2⟩
      ⟨"SIMSTATE", 1, 3, 2, 6, 1⟩) = true ∧
      exceptIsOk (validate_siminteg_file ⟨"a", 1, 9⟩
        ⟨"SIMINTEG", 2, 3, 4, 1⟩) = false :=
  ⟨(C5_header_filename_crosscheck.1 ⟨"a", 1, 2⟩
      ⟨"SIMSTATE", 1, 3, 2, 6, 1⟩).mpr (by decide),
    by
      have h := (C5_header_filename_crosscheck.2 ⟨"a", 1, 9⟩
        ⟨"SIMINTEG", 2, 3, 4, 1⟩)
      revert h
      decide⟩

/-- C4 counterexample: with a negative time step whose magnitude exceeds the
stop time, propagate raises nothing at all: np.arange(0, stop + dt, dt)
holds exactly the single point 0, the integration loop body never runs, and
the one-row trajectory file is written.  The claim requires an error before
any integration and no file at the destination. -/
theorem C4_counterexample :
    Propagator.propagate
        (numpyPointMassKernel id
          [({ mu := some 1, r_0 := some ⟨0, 0, 0⟩, v_0 := some ⟨0, 0, 0⟩ } : Body)])
        (-5) 3
        [({ mu := some 1, r_0 := some ⟨0, 0, 0⟩, v_0 := some ⟨0, 0, 0⟩ } : Body)]
        true =
      .ok ⟨[[0, 0, 0, 0, 0, 0]], true⟩ := by
  have hy : BodyList.y_0
      [({ mu := some 1, r_0 := some ⟨0, 0, 0⟩, v_0 := some ⟨0, 0, 0⟩ } : Body)] =
      .ok [0, 0, 0, 0, 0, 0] := rfl
  have harr : arangeCount 0 (3 + -5) (-5) = 1 := by
    rw [arangeCount]
    have h : ((3 : ℚ) + -5 - 0) / -5 = 2 / 5 := by norm_num
    rw [h]
    have h2 : ⌈((2 : ℚ)) / 5⌉ = 1 := by
      rw [Int.ceil_eq_iff]
      constructor <;> norm_num
    rw [h2]
    decide
  have hne : (-5 : ℚ) ≠ 0 := by norm_num
  simp only [Propagator.propagate, hy, Integrator_rk4, numpyPointMassKernel,
    Integrator_rk4_numpy, harr, hne, if_false, rk4Rows]
  norm_num

/-- C4 amended: propagate performs no fail-fast validation of its own.  With
time_step = 0 the time-array construction inside the integrator raises, and
with a negative time_step such that stop_time + time_step is positive the
empty trajectory raises an index error, in both cases before any file is
created; a body list on which the y_0 hstack concatenation itself raises (no
body defines r_0 or none defines v_0) fails before the integrator for every
time step, again with no file; but once y_0 builds, any positive time_step
and nonnegative stop_time make the call succeed and write the file for every
body list, including one with no defined mu, and a negative time_step such
that stop_time + time_step is negative even succeeds and writes a file. -/
theorem C4_no_validation :
    (∀ (sqrtf : ℚ → ℚ) (bl : List Body) (stop : ℚ),
      exceptIsOk (Propagator.propagate (numpyPointMassKernel sqrtf bl)
        0 stop bl true) = false) ∧
    (∀ (sqrtf : ℚ → ℚ) (bl : List Body) (dt stop : ℚ), dt < 0 →
      0 < stop + dt →
      exceptIsOk (Propagator.propagate (numpyPointMassKernel sqrtf bl)
        dt stop bl true) = false) ∧
    (∀ (sqrtf : ℚ → ℚ) (bl : List Body) (e : String) (dt stop : ℚ),
      BodyList.y_0 bl = .error e →
      exceptIsOk (Propagator.propagate (numpyPointMassKernel sqrtf bl)
        dt stop bl true) = false) ∧
    (∀ (sqrtf : ℚ → ℚ) (bl : List Body) (y0 : List ℚ) (dt stop : ℚ),
      BodyList.y_0 bl = .ok y0 → dt ≠ 0 → 0 < (stop + dt) / dt →
      ∃ rows, Propagator.propagate (numpyPointMassKernel sqrtf bl)
        dt stop bl true = .ok ⟨rows, true⟩) := by
  refine ⟨?_, ?_, ?_, ?_⟩
  · intro sqrtf bl stop
    cases hy : BodyList.y_0 bl with
    | error e => simp [Propagator.propagate, hy, exceptIsOk]
    | ok y0 =>
        simp [Propagator.propagate, hy, Integrator_rk4, numpyPointMassKernel,
          Integrator_rk4_numpy, exceptIsOk]
  · intro sqrtf bl dt stop hdt hpos
    have hq : (stop + dt - 0) / dt ≤ 0 := by
      rw [sub_zero]
      exact div_nonpos_of_nonneg_of_nonpos (le_of_lt hpos) (le_of_lt hdt)
    have hc : ⌈(stop + dt - 0) / dt⌉ ≤ 0 := Int.ceil_le.mpr (by push_cast; exact hq)
    have hz : arangeCount 0 (stop + dt) dt = 0 := by
      rw [arangeCount]
      omega
    cases hy : BodyList.y_0 bl with
    | error e => simp [Propagator.propagate, hy, exceptIsOk]
    | ok y0 =>
        simp [Propagator.propagate, hy, Integrator_rk4, numpyPointMassKernel,
          Integrator_rk4_numpy, ne_of_lt hdt, hz, exceptIsOk]
  · intro sqrtf bl e dt stop hy
    simp [Propagator.propagate, hy, exceptIsOk]
  · intro sqrtf bl y0 dt stop hy hdt hpos
    have hc : 0 < ⌈(stop + dt - 0) / dt⌉ := by
      rw [sub_zero]
      exact Int.ceil_pos.mpr hpos
    have hz : arangeCount 0 (stop + dt) dt ≠ 0 := by
      rw [arangeCount]
      omega
    refine ⟨rk4Rows (fun y => point_mass_numpy sqrtf 0 y bl.length
      (BodyList.muVec bl)) dt (arangeCount 0 (stop + dt) dt) y0, ?_⟩
    simp [Propagator.propagate, hy, Integrator_rk4, numpyPointMassKernel,
      Integrator_rk4_numpy, hdt, hz]

/-- Closed instance of C4 amended: a zero time step fails before the file is
written; a body list defining no attributes fails in the y_0 hstack for a
positive time step too; a mu-less body with defined initial conditions
succeeds with a positive time step and writes the file. -/
theorem C4_no_validation_witness :
    exceptIsOk (Propagator.propagate
      (numpyPointMassKernel id [({} : Body)]) 0 3 [({} : Body)] true) = false ∧
    (BodyList.y_0 [({} : Body)] =
      .error "need at least one array to concatenate") ∧
    exceptIsOk (Propagator.propagate
      (numpyPointMassKernel id [({} : Body)]) 1 3 [({} : Body)] true) = false ∧
    (BodyList.y_0 [({ r_0 := some ⟨0, 0, 0⟩, v_0 := some ⟨0, 0, 0⟩ } : Body)] =
      .ok [0, 0, 0, 0, 0, 0]) ∧
    ∃ rows, Propagator.propagate
      (numpyPointMassKernel id
        [({ r_0 := some ⟨0, 0, 0⟩, v_0 := some ⟨0, 0, 0⟩ } : Body)]) 1 3
      [({ r_0 := some ⟨0, 0, 0⟩, v_0 := some ⟨0, 0, 0⟩ } : Body)] true =
        .ok ⟨rows, true⟩ :=
  ⟨C4_no_validation.1 id [({} : Body)] 3,
    rfl,
    C4_no_validation.2.2.1 id [({} : Body)]
      "need at least one array to concatenate" 1 3 rfl,
    rfl,
    C4_no_validation.2.2.2 id
      [({ r_0 := some ⟨0, 0, 0⟩, v_0 := some ⟨0, 0, 0⟩ } : Body)]
      [0, 0, 0, 0, 0, 0] 1 3 rfl (by norm_num) (by norm_num)⟩

theorem rk4Step_length (f : List ℚ → List ℚ) (dt : ℚ) (y : List ℚ)
    (hf : ∀ v, (f v).length = v.length) :
    (rk4Step f dt y).length = y.length := by
  simp [rk4Step, vadd, List.length_zipWith, List.length_map, hf]

theorem rk4Step_iterate_length (f : List ℚ → List ℚ) (dt : ℚ) (y0 : List ℚ)
    (hf : ∀ v, (f v).length = v.length) (i : ℕ) :
    ((rk4Step f dt)^[i] y0).length = y0.length := by
  induction i with
  | zero => rfl
  | succ i ih =>
      rw [Function.iterate_succ_apply', rk4Step_length f dt _ hf, ih]

theorem rk4Rows_getD (f : List ℚ → List ℚ) (dt : ℚ) (steps : ℕ)
    (y0 : List ℚ) (i : ℕ) (hi : i < steps) :
    (rk4Rows f dt steps y0).getD i [] = (rk4Step f dt)^[i] y0 := by
  rw [rk4Rows, List.getD_eq_getElem?_getD, List.getElem?_map,
    List.getElem?_range hi]
  rfl

/-- C7 counterexample: with dt 2 and stop time 3 the generic RK4 loop
returns 3 rows, not floor(stop / dt) + 1 = 2 rows, because the row count is
the size of np.arange(0, stop + dt, dt), a ceiling. -/
theorem C7_counterexample :
    ¬ (exceptRows (Integrator_rk4_numpy (fun y => y.map (fun _ => (0 : ℚ)))
        2 3 [0]) = (⌊(3 : ℚ) / 2⌋).toNat + 1) := by
  have hfl : ⌊(3 : ℚ) / 2⌋ = 1 := by
    rw [Int.floor_eq_iff]
    constructor <;> norm_num
  have harr : arangeCount 0 (3 + 2) 2 = 3 := by
    rw [arangeCount]
    have h : ((3 : ℚ) + 2 - 0) / 2 = 5 / 2 := by norm_num
    rw [h]
    have h2 : ⌈(5 : ℚ) / 2⌉ = 3 := by
      rw [Int.ceil_eq_iff]
      constructor <;> norm_num
    rw [h2]
    decide
  have hne : (2 : ℚ) ≠ 0 := by norm_num
  simp [Integrator_rk4_numpy, hne, harr, exceptRows, rk4Rows, hfl]

/-- C7 amended: for a positive dt, a nonnegative stop time and a
length-preserving kernel without a fused backend, the generic RK4 loop
returns steps + 1 rows with steps = ceil(stop / dt) (not the floor of the
claim), row 0 the initial state, every row of dimension D, and each
successive row given by the classical four-stage RK4 update. -/
theorem C7_generic_rk4_shape_and_recurrence (f : List ℚ → List ℚ)
    (dt stop : ℚ) (y0 : List ℚ) (hdt : 0 < dt) (hstop : 0 ≤ stop)
    (hf : ∀ v, (f v).length = v.length) :
    ∃ rows, Integrator_rk4_numpy f dt stop y0 = .ok rows ∧
      rows.length = (⌈stop / dt⌉).toNat + 1 ∧
      rows.getD 0 [] = y0 ∧
      (∀ r ∈ rows, r.length = y0.length) ∧
      (∀ i, i + 1 < rows.length → ∀ k1 k2 k3 k4 : List ℚ,
        k1 = f (rows.getD i []) →
        k2 = f (vadd (rows.getD i []) (k1.map (fun x => dt / 2 * x))) →
        k3 = f (vadd (rows.getD i []) (k2.map (fun x => dt / 2 * x))) →
        k4 = f (vadd (rows.getD i []) (k3.map (fun x => dt * x))) →
        rows.getD (i + 1) [] =
          vadd (rows.getD i [])
            ((vadd (vadd (vadd k1 (k2.map (fun x => 2 * x)))
              (k3.map (fun x => 2 * x))) k4).map (fun x => dt / 6 * x))) := by
  have hdt0 : dt ≠ 0 := ne_of_gt hdt
  have hdiv : (stop + dt - 0) / dt = stop / dt + 1 := by
    field_simp
  have hceil : ⌈(stop + dt - 0) / dt⌉ = ⌈stop / dt⌉ + 1 := by
    rw [hdiv]
    exact_mod_cast Int.ceil_add_one (stop / dt)
  have hnn : 0 ≤ ⌈stop / dt⌉ := Int.ceil_nonneg (by positivity)
  have hsteps : arangeCount 0 (stop + dt) dt = (⌈stop / dt⌉).toNat + 1 := by
    rw [arangeCount, hceil]
    omega
  have hne : arangeCount 0 (stop + dt) dt ≠ 0 := by
    rw [hsteps]
    omega
  refine ⟨rk4Rows f dt (arangeCount 0 (stop + dt) dt) y0, ?_, ?_, ?_, ?_, ?_⟩
  · simp [Integrator_rk4_numpy, hdt0, hne]
  · simp [rk4Rows, hsteps]
  · rw [rk4Rows_getD f dt _ y0 0 (by omega)]
    rfl
  · intro r hr
    rw [rk4Rows] at hr
    obtain ⟨i, hmem, rfl⟩ := List.mem_map.mp hr
    exact rk4Step_iterate_length f dt y0 hf i
  · intro i hi k1 k2 k3 k4 h1 h2 h3 h4
    have hlen : (rk4Rows f dt (arangeCount 0 (stop + dt) dt) y0).length =
        arangeCount 0 (stop + dt) dt := by
      simp [rk4Rows]
    rw [hlen] at hi
    rw [rk4Rows_getD f dt _ y0 (i + 1) hi,
      rk4Rows_getD f dt _ y0 i (by omega)] at *
    rw [Function.iterate_succ_apply']
    subst h1 h2 h3 h4
    rw [rk4Step]
    have e1 : (fun x : ℚ => x * dt / 2) = (fun x : ℚ => dt / 2 * x) := by
      funext x
      ring
    have e2 : (fun x : ℚ => x * dt) = (fun x : ℚ => dt * x) := by
      funext x
      ring
    rw [e1, e2]

/-- Closed instance of C7 amended at the identity kernel, dt 1, stop 2. -/
theorem C7_generic_rk4_shape_and_recurrence_witness :
    ∃ rows, Integrator_rk4_numpy id 1 2 [5] = .ok rows ∧
      rows.length = (⌈(2 : ℚ) / 1⌉).toNat + 1 ∧
      rows.getD 0 [] = [5] ∧
      (∀ r ∈ rows, r.length = [(5 : ℚ)].length) ∧
      (∀ i, i + 1 < rows.length → ∀ k1 k2 k3 k4 : List ℚ,
        k1 = id (rows.getD i []) →
        k2 = id (vadd (rows.getD i []) (k1.map (fun x => (1 : ℚ) / 2 * x))) →
        k3 = id (vadd (rows.getD i []) (k2.map (fun x => (1 : ℚ) / 2 * x))) →
        k4 = id (vadd (rows.getD i []) (k3.map (fun x => (1 : ℚ) * x))) →
        rows.getD (i + 1) [] =
          vadd (rows.getD i [])
            ((vadd (vadd (vadd k1 (k2.map (fun x => 2 * x)))
              (k3.map (fun x => 2 * x))) k4).map (fun x => (1 : ℚ) / 6 * x))) :=
  C7_generic_rk4_shape_and_recurrence id 1 2 [5] (by norm_num) (by norm_num)
    (fun v => rfl)

theorem rk4Step_eq_rk4StepNumba (f : List ℚ → List ℚ) (dt : ℚ) :
    rk4Step f dt = rk4StepNumba f dt := by
  funext y
  have e1 : (fun x : ℚ => x * dt / 2) = (fun x : ℚ => 0.5 * dt * x) := by
    funext x
    ring
  have e2 : (fun x : ℚ => x * dt) = (fun x : ℚ => dt * x) := by
    funext x
    ring
  rw [rk4Step, rk4StepNumba, e1, e2]

/-- C6 counterexample: for the one-body numba point-mass kernel, dt 2 and
stop time 3, the fused backend returns int(stop / dt) + 1 = 2 rows while the
generic RK4 loop over the same kernel returns 3 rows, so the fused result
does not have the same number of rows as the generic loop. -/
theorem C6_counterexample :
    ¬ ((numba_rk4_backend
          (fun y => point_mass_numba (fun x => x) y 1 [1])
          [0, 0, 0, 0, 0, 0] 2 3).length =
        exceptRows (Integrator_rk4_numpy
          (fun y => point_mass_numba (fun x => x) y 1 [1])
          2 3 [0, 0, 0, 0, 0, 0])) := by
  have hpy : pyInt ((3 : ℚ) / 2) = 1 := by
    rw [pyInt, if_neg (by norm_num)]
    rw [Int.floor_eq_iff]
    constructor <;> norm_num
  have harr : arangeCount 0 (3 + 2) 2 = 3 := by
    rw [arangeCount]
    have h : ((3 : ℚ) + 2 - 0) / 2 = 5 / 2 := by norm_num
    rw [h]
    have h2 : ⌈(5 : ℚ) / 2⌉ = 3 := by
      rw [Int.ceil_eq_iff]
      constructor <;> norm_num
    rw [h2]
    decide
  have hne : (2 : ℚ) ≠ 0 := by norm_num
  simp [numba_rk4_backend, rk4NumbaRows, Integrator_rk4_numpy, hne, harr,
    exceptRows, rk4Rows, hpy]

/-- C6 amended: Integrator.rk4 returns the fused backend result unchanged
whenever the kernel advertises one; and whenever stop_time is an integer
multiple of dt, the fused numba RK4 path (progress reporting disabled)
produces exactly the rows of the generic RK4 loop over the same kernel, the
same row count included, so the two agree within any tolerance. -/
theorem C6_fused_backend_agreement :
    (∀ (k : IntegKernel) (b : List ℚ → ℚ → ℚ → List (List ℚ))
      (state : List ℚ) (dt stop : ℚ), k.rk4_backend = some b →
      Integrator_rk4 k state dt stop = .ok (b state dt stop)) ∧
    (∀ (f : List ℚ → List ℚ) (y0 : List ℚ) (dt : ℚ) (m : ℕ), dt ≠ 0 →
      Integrator_rk4_numpy f dt (m * dt) y0 =
        .ok (numba_rk4_backend f y0 dt (m * dt))) := by
  constructor
  · intro k b state dt stop hb
    rw [Integrator_rk4, hb]
  · intro f y0 dt m hdt
    have hq : ((m : ℚ) * dt) / dt = (m : ℚ) := by
      field_simp
    have hpy : pyInt (((m : ℚ) * dt) / dt) = (m : ℤ) := by
      rw [pyInt, hq]
      rw [if_neg (not_lt.mpr (Nat.cast_nonneg m))]
      exact_mod_cast Int.floor_natCast m
    have hdiv : ((m : ℚ) * dt + dt - 0) / dt = (m : ℚ) + 1 := by
      field_simp
      ring
    have hceil : ⌈((m : ℚ) * dt + dt - 0) / dt⌉ = (m : ℤ) + 1 := by
      rw [hdiv]
      exact_mod_cast Int.ceil_intCast ((m : ℤ) + 1)
    have harr : arangeCount 0 ((m : ℚ) * dt + dt) dt = m + 1 := by
      rw [arangeCount, hceil]
      omega
    have hne : arangeCount 0 ((m : ℚ) * dt + dt) dt ≠ 0 := by
      omega
    rw [Integrator_rk4_numpy, if_neg hdt]
    simp only [harr, numba_rk4_backend, hpy]
    rw [if_neg (by omega)]
    have : ((m : ℤ)).toNat + 1 = m + 1 := by
      omega
    rw [this, rk4Rows, rk4NumbaRows, rk4Step_eq_rk4StepNumba]

/-- Closed instance of C6 amended: a kernel with a backend is dispatched to
it unchanged, and for dt 2, stop 6 = 3 * 2 the generic loop equals the fused
numba path on the identity kernel. -/
theorem C6_fused_backend_agreement_witness :
    Integrator_rk4 ⟨id, some (fun s _ _ => [s])⟩ [3] 1 1 = .ok [[3]] ∧
      Integrator_rk4_numpy id 2 ((3 : ℕ) * 2) [7] =
        .ok (numba_rk4_backend id [7] 2 ((3 : ℕ) * 2)) :=
  ⟨C6_fused_backend_agreement.1 ⟨id, some (fun s _ _ => [s])⟩
      (fun s _ _ => [s]) [3] 1 1 rfl,
    C6_fused_backend_agreement.2 id [7] 2 3 (by norm_num)⟩

theorem pySelect_mem_lt (k : PyIdx) (len x : ℕ) (hx : x ∈ pySelect k len) :
    x < len := by
  cases k with
  | int i =>
      simp only [pySelect] at hx
      exact List.mem_range.mp (List.mem_filter.mp hx).1
  | slice s t =>
      simp only [pySelect] at hx
      exact List.mem_range.mp (List.mem_filter.mp hx).1

theorem rvview_row_length (mm : List (List (List ℚ))) (rv : RV)
    (step body : PyIdx) (hwf : ∀ st ∈ mm, ∀ row ∈ st, row.length = 6) :
    ∀ M ∈ RVView.getitem mm rv step body, ∀ row ∈ M, row.length = 3 := by
  intro M hM row hrow
  rw [RVView.getitem] at hM
  obtain ⟨s, hs, rfl⟩ := List.mem_map.mp hM
  obtain ⟨b, hb, rfl⟩ := List.mem_map.mp hrow
  have hslt : s < mm.length := pySelect_mem_lt _ _ _ hs
  have hstep : mm.getD s [] ∈ mm := by
    rw [List.getD_eq_getElem mm [] hslt]
    exact List.getElem_mem hslt
  have hblt : b < (mm.getD s []).length := pySelect_mem_lt _ _ _ hb
  have hrowmem : (mm.getD s []).getD b [] ∈ mm.getD s [] := by
    rw [List.getD_eq_getElem _ [] hblt]
    exact List.getElem_mem hblt
  have h6 : ((mm.getD s []).getD b []).length = 6 := hwf _ hstep _ hrowmem
  cases rv with
  | r =>
      simp only [List.length_take]
      simp only [List.getD_eq_getElem?_getD] at h6 ⊢
      omega
  | v =>
      simp only [List.length_take, List.length_drop]
      simp only [List.getD_eq_getElem?_getD] at h6 ⊢
      omega

theorem getD_map_of_default {α β : Type} (l : List α) (f : α → β) (i : ℕ)
    (d0 : α) (d : β) (hd : f d0 = d) : (l.map f).getD i d = f (l.getD i d0) := by
  rcases Nat.lt_or_ge i l.length with h | h
  · rw [List.getD_eq_getElem _ d (by simpa using h),
      List.getD_eq_getElem _ d0 h, List.getElem_map]
  · rw [List.getD_eq_default _ d (by simpa using h),
      List.getD_eq_default _ d0 h, hd]

theorem getD_map_range {β : Type} (n : ℕ) (f : ℕ → β) (c : ℕ) (d : β)
    (hc : c < n) : ((List.range n).map f).getD c d = f c := by
  rw [List.getD_eq_getElem _ d (by simpa using hc), List.getElem_map,
    List.getElem_range]

/-- C9 counterexample: on the canonical (3, 2, 6) test array the full
visualization read has 3 time rows, not the shape (2, 3, 2) asserted by the
claim for the test file built from the known 3-row state array. -/
theorem C9_counterexample :
    ¬ ((RVVisView.getitem mmTest .r (.slice 0 none)
        (.slice 0 none)).length = 2) := by
  decide

/-- C9 amended: for every memory map with 6-wide rows, every key and every
in-range component index, the visualization views hold exactly the
(0, 2, 1)-axis transpose of the base views; on the canonical test array the
full visualization reads are the explicit (3, 3, 2) transposes of the
(3, 2, 6) layout (3 rows, not the 2 of the claim). -/
theorem C9_vis_view_transpose :
    (∀ (mm : List (List (List ℚ))) (rv : RV) (step body : PyIdx)
      (s c b : ℕ), (∀ st ∈ mm, ∀ row ∈ st, row.length = 6) → c < 3 →
      (((RVVisView.getitem mm rv step body).getD s []).getD c []).getD b 0 =
        (((RVView.getitem mm rv step body).getD s []).getD b []).getD c 0) ∧
      RVVisView.getitem mmTest .r (.slice 0 none) (.slice 0 none) =
        [[[0, 3], [1, 4], [2, 5]], [[12, 15], [13, 16], [14, 17]],
          [[24, 27], [25, 28], [26, 29]]] ∧
      RVVisView.getitem mmTest .v (.slice 0 none) (.slice 0 none) =
        [[[6, 9], [7, 10], [8, 11]], [[18, 21], [19, 22], [20, 23]],
          [[30, 33], [31, 34], [32, 35]]] := by
  refine ⟨?_, by decide, by decide⟩
  intro mm rv step body s c b hwf hc
  have hrows := rvview_row_length mm rv step body hwf
  set base := RVView.getitem mm rv step body with hbase
  rw [RVVisView.getitem, ← hbase, transpose021]
  rw [getD_map_of_default base _ s [] [] rfl]
  set M := base.getD s [] with hM
  cases hMc : M with
  | nil => simp
  | cons r0 rest =>
      have hMmem : M ∈ base := by
        rcases Nat.lt_or_ge s base.length with h | h
        · rw [hM, List.getD_eq_getElem _ [] h]
          exact List.getElem_mem h
        · rw [hM, List.getD_eq_default _ [] h] at hMc
          exact absurd hMc (by simp)
      have hr0 : r0.length = 3 := hrows _ (hMc ▸ hMmem) r0 (List.mem_cons_self r0 rest)
      simp only [List.headD_cons, hr0]
      rw [getD_map_range 3 _ c [] hc]
      rw [getD_map_of_default (r0 :: rest) (fun row => row.getD c 0) b [] 0 rfl]

/-- Closed instance of C9 amended at the canonical test array, step key 1,
component 1, body 0. -/
theorem C9_vis_view_transpose_witness :
    (((RVVisView.getitem mmTest .r (.int 1) (.slice 0 none)).getD 0
        []).getD 1 []).getD 0 0 =
      (((RVView.getitem mmTest .r (.int 1) (.slice 0 none)).getD 0
        []).getD 0 []).getD 1 0 :=
  C9_vis_view_transpose.1 mmTest .r (.int 1) (.slice 0 none) 0 1 0
    (by decide) (by decide)

/-- C8 counterexample: two distinct bodies at the same position.  Both the
reference numpy kernel and the scalar-loop numba kernel produce NaN for
every acceleration component (0 times infinity), so the degenerate-distance
policy is not a zero contribution, and the two outputs do not agree within
rtol 1e-10, atol 1e-12 on component 6 under the componentwise closeness
reading (a NaN is never close to anything). -/
theorem C8_counterexample :
    (point_mass_numpy (floatSqrt id) FloatVal.inf
        (List.replicate 12 (FloatVal.fin 0)) 2 [1, 1]).getD 6 0 =
      FloatVal.nan ∧
      (point_mass_numba (floatSqrt id)
          (List.replicate 12 (FloatVal.fin 0)) 2 [1, 1]).getD 6 0 =
        FloatVal.nan ∧
      floatIsClose (1 / 10 ^ 10) (1 / 10 ^ 12)
        ((point_mass_numpy (floatSqrt id) FloatVal.inf
          (List.replicate 12 (FloatVal.fin 0)) 2 [1, 1]).getD 6 0)
        ((point_mass_numba (floatSqrt id)
          (List.replicate 12 (FloatVal.fin 0)) 2 [1, 1]).getD 6 0) = false ∧
      FloatVal.nan ≠ FloatVal.fin 0 := by
  have ez : (0 : FloatVal) = FloatVal.fin 0 := rfl
  have eo : (1 : FloatVal) = FloatVal.fin 1 := rfl
  have ea : ∀ a b : FloatVal, a + b = FloatVal.add a b := fun _ _ => rfl
  have es : ∀ a b : FloatVal, a - b = FloatVal.sub a b := fun _ _ => rfl
  have em : ∀ a b : FloatVal, a * b = FloatVal.mul a b := fun _ _ => rfl
  have ed : ∀ a b : FloatVal, a / b = FloatVal.div a b := fun _ _ => rfl
  have en : ∀ a : FloatVal, -a = FloatVal.neg a := fun _ => rfl
  refine ⟨?_, ?_, ?_, by simp⟩ <;>
    norm_num [point_mass_numpy, point_mass_numba, applyBumps,
      numbaPairBumps, floatSqrt, floatIsClose, List.range_succ, List.range',
      List.replicate, List.foldl, List.set, ez, eo, ea, es, em, ed, en,
      FloatVal.add, FloatVal.sub, FloatVal.mul, FloatVal.div, FloatVal.neg]

theorem applyBumps_length (init : List ℚ) (bumps : List (ℕ × ℚ)) :
    (applyBumps init bumps).length = init.length := by
  induction bumps generalizing init with
  | nil => rfl
  | cons p rest ih =>
      rw [applyBumps, List.foldl_cons]
      rw [show List.foldl (fun out p => out.set p.1 (out.getD p.1 0 + p.2))
        (init.set p.1 (init.getD p.1 0 + p.2)) rest =
        applyBumps (init.set p.1 (init.getD p.1 0 + p.2)) rest from rfl]
      rw [ih, List.length_set]

theorem getD_applyBumps (init : List ℚ) (bumps : List (ℕ × ℚ)) (k : ℕ)
    (hk : k < init.length) :
    (applyBumps init bumps).getD k 0 =
      init.getD k 0 + (bumps.map (fun p => if p.1 = k then p.2 else 0)).sum := by
  induction bumps generalizing init with
  | nil => simp [applyBumps]
  | cons p rest ih =>
      rw [applyBumps, List.foldl_cons]
      rw [show List.foldl (fun out p => out.set p.1 (out.getD p.1 0 + p.2))
        (init.set p.1 (init.getD p.1 0 + p.2)) rest =
        applyBumps (init.set p.1 (init.getD p.1 0 + p.2)) rest from rfl]
      have hk' : k < (init.set p.1 (init.getD p.1 0 + p.2)).length := by
        simpa using hk
      rw [ih _ hk', List.map_cons, List.sum_cons]
      by_cases hpk : p.1 = k
      · subst hpk
        rw [List.getD_eq_getElem _ 0 (by simpa using hk)]
        simp [List.getElem_set]
        ring
      · rw [List.getD_eq_getElem?_getD ((init.set p.1 _)),
          List.getElem?_set_ne hpk, ← List.getD_eq_getElem?_getD]
        rw [if_neg hpk]
        ring

theorem sum_map_flatten {α : Type} (L : List (List α)) (h : α → ℚ) :
    ((L.flatten).map h).sum = (L.map (fun l => (l.map h).sum)).sum := by
  induction L with
  | nil => simp
  | cons l rest ih =>
      simp only [List.flatten_cons, List.map_append, List.sum_append, ih,
        List.map_cons, List.sum_cons]

theorem sum_map_range_finset (n : ℕ) (g : ℕ → ℚ) :
    ((List.range n).map g).sum = ∑ i ∈ Finset.range n, g i := by
  induction n with
  | zero => simp
  | succ n ih => simp [List.range_succ, Finset.sum_range_succ, ih]

theorem sum_map_range'_finset (a l : ℕ) (g : ℕ → ℚ) :
    ((List.range' a l).map g).sum = ∑ i ∈ Finset.range l, g (a + i) := by
  rw [List.range'_eq_map_range, List.map_map, sum_map_range_finset]
  rfl

theorem pair_bump_sum (sqrtf : ℚ → ℚ) (state : List ℚ) (n : ℕ)
    (mu : List ℚ) (i j b c : ℕ) (hc : c < 3) :
    ((numbaPairBumps sqrtf state n mu i j).map
        (fun p => if p.1 = 3 * n + 3 * b + c then p.2 else 0)).sum =
      (if i = b then ((numbaPairBumps sqrtf state n mu i j).getD c
        (0, 0)).2 else 0) +
        (if j = b then ((numbaPairBumps sqrtf state n mu i j).getD (3 + c)
          (0, 0)).2 else 0) := by
  simp only [numbaPairBumps, List.map_cons, List.map_nil, List.sum_cons,
    List.sum_nil]
  interval_cases c
  · have e1 : (3 * i + 3 * n = 3 * n + 3 * b) ↔ i = b := by omega
    have e2 : ¬ (3 * i + 1 + 3 * n = 3 * n + 3 * b) := by omega
    have e3 : ¬ (3 * i + 2 + 3 * n = 3 * n + 3 * b) := by omega
    have e4 : (3 * j + 3 * n = 3 * n + 3 * b) ↔ j = b := by omega
    have e5 : ¬ (3 * j + 1 + 3 * n = 3 * n + 3 * b) := by omega
    have e6 : ¬ (3 * j + 2 + 3 * n = 3 * n + 3 * b) := by omega
    norm_num [e1, e2, e3, e4, e5, e6, List.getD_cons_zero,
      List.getD_cons_succ]
  · have e1 : ¬ (3 * i + 3 * n = 3 * n + 3 * b + 1) := by omega
    have e2 : (3 * i + 1 + 3 * n = 3 * n + 3 * b + 1) ↔ i = b := by omega
    have e3 : ¬ (3 * i + 2 + 3 * n = 3 * n + 3 * b + 1) := by omega
    have e4 : ¬ (3 * j + 3 * n = 3 * n + 3 * b + 1) := by omega
    have e5 : (3 * j + 1 + 3 * n = 3 * n + 3 * b + 1) ↔ j = b := by omega
    have e6 : ¬ (3 * j + 2 + 3 * n = 3 * n + 3 * b + 1) := by omega
    norm_num [e1, e2, e3, e4, e5, e6, List.getD_cons_zero,
      List.getD_cons_succ]
  · have e1 : ¬ (3 * i + 3 * n = 3 * n + 3 * b + 2) := by omega
    have e2 : ¬ (3 * i + 1 + 3 * n = 3 * n + 3 * b + 2) := by omega
    have e3 : (3 * i + 2 + 3 * n = 3 * n + 3 * b + 2) ↔ i = b := by omega
    have e4 : ¬ (3 * j + 3 * n = 3 * n + 3 * b + 2) := by omega
    have e5 : ¬ (3 * j + 1 + 3 * n = 3 * n + 3 * b + 2) := by omega
    have e6 : (3 * j + 2 + 3 * n = 3 * n + 3 * b + 2) ↔ j = b := by omega
    norm_num [e1, e2, e3, e4, e5, e6, List.getD_cons_zero,
      List.getD_cons_succ]

theorem sum_ite_lt_range (n b : ℕ) (hb : b ≤ n) (g : ℕ → ℚ) :
    (∑ i ∈ Finset.range n, if i < b then g i else 0) =
      ∑ i ∈ Finset.range b, g i := by
  rw [← Finset.sum_filter]
  congr 1
  ext x
  simp only [Finset.mem_filter, Finset.mem_range]
  omega

theorem inv_r3_eq (d sv : ℚ) (hd : d ≠ 0) (hs : sv * sv = d) :
    1 / sv * (1 / sv) * (1 / sv) = 1 / (d * sv) := by
  have hs0 : sv ≠ 0 := by
    intro h
    rw [h, mul_zero] at hs
    exact hd hs.symm
  rw [← hs]
  field_simp

theorem flatten_getD_rows3 (L : List (List ℚ)) (hL : ∀ l ∈ L, l.length = 3)
    (b c : ℕ) (hb : b < L.length) (hc : c < 3) :
    (L.flatten).getD (3 * b + c) 0 = (L.getD b []).getD c 0 := by
  induction L generalizing b with
  | nil => simp at hb
  | cons l rest ih =>
      have hl : l.length = 3 := hL l (by simp)
      cases b with
      | zero =>
          have hcl : c < l.length := by omega
          rw [List.flatten_cons]
          have h0 : 3 * 0 + c = c := by omega
          rw [h0, List.getD_eq_getElem?_getD, List.getElem?_append_left hcl]
          simp [List.getD_eq_getElem?_getD]
      | succ b =>
          rw [List.flatten_cons]
          have hidx : 3 * (b + 1) + c = l.length + (3 * b + c) := by omega
          rw [hidx, List.getD_eq_getElem?_getD, List.getElem?_append_right
            (by omega), Nat.add_sub_cancel_left]
          rw [← List.getD_eq_getElem?_getD]
          rw [ih (fun x hx => hL x (by simp [hx])) b (by simpa using hb)]
          simp [List.getD_cons_succ]

theorem getD_replicate_zero (t m : ℕ) :
    (List.replicate t (0 : ℚ)).getD m 0 = 0 := by
  rw [List.getD_eq_getElem?_getD, List.getElem?_replicate]
  split <;> simp

theorem length_flatten_rows3 (n : ℕ) (g : ℕ → ℕ → ℚ) :
    (((List.range n).map (fun i => (List.range 3).map (g i))).flatten).length
      = 3 * n := by
  induction n with
  | zero => simp
  | succ n ih =>
      rw [show List.range (n + 1) = List.range n ++ [n] from List.range_succ n,
        List.map_append, List.flatten_append, List.length_append, ih]
      simp
      omega

theorem point_mass_numpy_length (sqrtf : ℚ → ℚ) (infVal : ℚ)
    (state : List ℚ) (n : ℕ) (mu : List ℚ) :
    (point_mass_numpy sqrtf infVal state n mu).length = 6 * n := by
  rw [point_mass_numpy, List.length_append, List.length_map,
    List.length_range, length_flatten_rows3]
  omega

theorem point_mass_numba_length (sqrtf : ℚ → ℚ) (state : List ℚ) (n : ℕ)
    (mu : List ℚ) :
    (point_mass_numba sqrtf state n mu).length = 6 * n := by
  rw [point_mass_numba, applyBumps_length, List.length_append,
    List.length_map, List.length_range, List.length_replicate]
  omega

theorem point_mass_numpy_getD_vel (sqrtf : ℚ → ℚ) (infVal : ℚ)
    (state : List ℚ) (n : ℕ) (mu : List ℚ) (k : ℕ) (hk : k < 3 * n) :
    (point_mass_numpy sqrtf infVal state n mu).getD k 0 =
      state.getD (3 * n + k) 0 := by
  rw [point_mass_numpy]
  rw [List.getD_eq_getElem?_getD, List.getElem?_append_left
    (by simpa using hk), ← List.getD_eq_getElem?_getD]
  exact getD_map_range (3 * n) _ k 0 hk

theorem point_mass_numpy_getD_acc (sqrtf : ℚ → ℚ) (infVal : ℚ)
    (state : List ℚ) (n : ℕ) (mu : List ℚ) (b c : ℕ) (hb : b < n)
    (hc : c < 3) :
    (point_mass_numpy sqrtf infVal state n mu).getD (3 * n + (3 * b + c)) 0 =
      ∑ j ∈ Finset.range n,
        (state.getD (3 * j + c) 0 - state.getD (3 * b + c) 0) *
          (mu.getD j 0 *
            (1 / ((if b = j then infVal else dSq state b j) *
              sqrtf (if b = j then infVal else dSq state b j)))) := by
  rw [point_mass_numpy]
  rw [List.getD_eq_getElem?_getD, List.getElem?_append_right (by simp),
    List.length_map, List.length_range, Nat.add_sub_cancel_left,
    ← List.getD_eq_getElem?_getD]
  rw [flatten_getD_rows3 _ (by
    intro l hl
    obtain ⟨i, hi, rfl⟩ := List.mem_map.mp hl
    simp) b c (by simpa using hb) hc]
  rw [getD_map_range n _ b [] hb, getD_map_range 3 _ c 0 hc]
  simp only []
  rw [sum_map_range_finset]
  simp only [dSq]

theorem numba_pair_val_A (sqrtf : ℚ → ℚ) (state : List ℚ) (n : ℕ)
    (mu : List ℚ) (b j c : ℕ) (hc : c < 3) (hne : dSq state b j ≠ 0)
    (hs : sqrtf (dSq state b j) * sqrtf (dSq state b j) = dSq state b j) :
    ((numbaPairBumps sqrtf state n mu b j).getD c (0, 0)).2 =
      (state.getD (3 * j + c) 0 - state.getD (3 * b + c) 0) *
        (mu.getD j 0 * (1 / (dSq state b j * sqrtf (dSq state b j)))) := by
  have hr2 : (state.getD (3 * b) 0 - state.getD (3 * j) 0) *
        (state.getD (3 * b) 0 - state.getD (3 * j) 0) +
      (state.getD (3 * b + 1) 0 - state.getD (3 * j + 1) 0) *
        (state.getD (3 * b + 1) 0 - state.getD (3 * j + 1) 0) +
      (state.getD (3 * b + 2) 0 - state.getD (3 * j + 2) 0) *
        (state.getD (3 * b + 2) 0 - state.getD (3 * j + 2) 0) =
      dSq state b j := by
    rw [dSq]
    ring
  interval_cases c <;>
    · simp only [numbaPairBumps, List.getD_cons_zero, List.getD_cons_succ]
      rw [hr2, inv_r3_eq _ _ hne hs]
      ring

theorem numba_pair_val_B (sqrtf : ℚ → ℚ) (state : List ℚ) (n : ℕ)
    (mu : List ℚ) (i b c : ℕ) (hc : c < 3) (hne : dSq state b i ≠ 0)
    (hs : sqrtf (dSq state b i) * sqrtf (dSq state b i) = dSq state b i) :
    ((numbaPairBumps sqrtf state n mu i b).getD (3 + c) (0, 0)).2 =
      (state.getD (3 * i + c) 0 - state.getD (3 * b + c) 0) *
        (mu.getD i 0 * (1 / (dSq state b i * sqrtf (dSq state b i)))) := by
  have hr2 : (state.getD (3 * i) 0 - state.getD (3 * b) 0) *
        (state.getD (3 * i) 0 - state.getD (3 * b) 0) +
      (state.getD (3 * i + 1) 0 - state.getD (3 * b + 1) 0) *
        (state.getD (3 * i + 1) 0 - state.getD (3 * b + 1) 0) +
      (state.getD (3 * i + 2) 0 - state.getD (3 * b + 2) 0) *
        (state.getD (3 * i + 2) 0 - state.getD (3 * b + 2) 0) =
      dSq state b i := by
    rw [dSq]
    ring
  interval_cases c <;>
    · simp only [numbaPairBumps, List.getD_cons_zero, List.getD_cons_succ]
      rw [hr2, inv_r3_eq _ _ hne hs]
      ring

theorem point_mass_numba_getD_acc (sqrtf : ℚ → ℚ) (state : List ℚ) (n : ℕ)
    (mu : List ℚ) (b c : ℕ) (hb : b < n) (hc : c < 3) :
    (point_mass_numba sqrtf state n mu).getD (3 * n + 3 * b + c) 0 =
      (∑ t ∈ Finset.range (n - (b + 1)),
        ((numbaPairBumps sqrtf state n mu b (b + 1 + t)).getD c (0, 0)).2) +
        ∑ i ∈ Finset.range b,
          ((numbaPairBumps sqrtf state n mu i b).getD (3 + c) (0, 0)).2 := by
  rw [point_mass_numba]
  have hinit : ((List.range (3 * n)).map
      (fun k => state.getD (k + 3 * n) 0) ++
      List.replicate (3 * n) (0 : ℚ)).length = 6 * n := by
    simp
    omega
  rw [getD_applyBumps _ _ (3 * n + 3 * b + c) (by rw [hinit]; omega)]
  have hinit0 : ((List.range (3 * n)).map
      (fun k => state.getD (k + 3 * n) 0) ++
      List.replicate (3 * n) (0 : ℚ)).getD (3 * n + 3 * b + c) 0 = 0 := by
    rw [List.getD_eq_getElem?_getD, List.getElem?_append_right (by simp; omega),
      ← List.getD_eq_getElem?_getD]
    simp only [List.length_map, List.length_range]
    rw [getD_replicate_zero]
  rw [hinit0, zero_add]
  rw [sum_map_flatten, sum_map_flatten, List.map_map, sum_map_range_finset]
  simp only [Function.comp]
  have hstep : ∀ i : ℕ,
      ((List.map (fun l => (List.map (fun p =>
          if p.1 = 3 * n + 3 * b + c then p.2 else 0) l).sum)
        (List.map (numbaPairBumps sqrtf state n mu i)
          (List.range' (i + 1) (n - (i + 1))))).sum) =
      ∑ t ∈ Finset.range (n - (i + 1)),
        ((if i = b then ((numbaPairBumps sqrtf state n mu i
          (i + 1 + t)).getD c (0, 0)).2 else 0) +
          (if i + 1 + t = b then ((numbaPairBumps sqrtf state n mu i
            (i + 1 + t)).getD (3 + c) (0, 0)).2 else 0)) := by
    intro i
    rw [List.map_map, sum_map_range'_finset]
    refine Finset.sum_congr rfl ?_
    intro t ht
    exact pair_bump_sum sqrtf state n mu i (i + 1 + t) b c hc
  rw [Finset.sum_congr rfl (fun i _ => hstep i)]
  have hsplit : ∀ i : ℕ, (∑ t ∈ Finset.range (n - (i + 1)),
      ((if i = b then ((numbaPairBumps sqrtf state n mu i
        (i + 1 + t)).getD c (0, 0)).2 else 0) +
        (if i + 1 + t = b then ((numbaPairBumps sqrtf state n mu i
          (i + 1 + t)).getD (3 + c) (0, 0)).2 else 0))) =
      (if i = b then (∑ t ∈ Finset.range (n - (i + 1)),
        ((numbaPairBumps sqrtf state n mu i (i + 1 + t)).getD c
          (0, 0)).2) else 0) +
        (if i < b then ((numbaPairBumps sqrtf state n mu i b).getD
          (3 + c) (0, 0)).2 else 0) := by
    intro i
    rw [Finset.sum_add_distrib]
    have hA : (∑ t ∈ Finset.range (n - (i + 1)),
        (if i = b then ((numbaPairBumps sqrtf state n mu i
          (i + 1 + t)).getD c (0, 0)).2 else 0)) =
        (if i = b then (∑ t ∈ Finset.range (n - (i + 1)),
          ((numbaPairBumps sqrtf state n mu i (i + 1 + t)).getD c
            (0, 0)).2) else 0) := by
      by_cases hib : i = b <;> simp [hib]
    have hB : (∑ t ∈ Finset.range (n - (i + 1)),
        (if i + 1 + t = b then ((numbaPairBumps sqrtf state n mu i
          (i + 1 + t)).getD (3 + c) (0, 0)).2 else 0)) =
        (if i < b then ((numbaPairBumps sqrtf state n mu i b).getD
          (3 + c) (0, 0)).2 else 0) := by
      by_cases hib : i < b
      · rw [if_pos hib]
        rw [Finset.sum_eq_single (b - (i + 1))]
        · rw [if_pos (show i + 1 + (b - (i + 1)) = b by omega)]
          rw [show i + 1 + (b - (i + 1)) = b from by omega]
        · intro t ht htne
          rw [if_neg (show ¬ (i + 1 + t = b) from by omega)]
        · intro hnot
          exact absurd (Finset.mem_range.mpr (by omega)) hnot
      · rw [if_neg hib]
        refine Finset.sum_eq_zero ?_
        intro t ht
        rw [if_neg (show ¬ (i + 1 + t = b) from by omega)]
    rw [hA, hB]
  rw [Finset.sum_congr rfl (fun i _ => hsplit i)]
  rw [Finset.sum_add_distrib]
  congr 1
  · rw [Finset.sum_ite_eq' (Finset.range n) b]
    rw [if_pos (Finset.mem_range.mpr hb)]
  · exact sum_ite_lt_range n b (le_of_lt hb) _

/-- C8 amended: over exact arithmetic, whenever all pairwise squared
distances are nonzero and the supplied square root is consistent on them,
the reference numpy kernel and the scalar-loop numba kernel produce exactly
the same output buffer, for every state, body count, mu vector and diagonal
fill value, hence agree within any tolerance; the zero-distance guard covers
only the self-interaction term, and coincident distinct bodies produce NaN
in both backends (see the counterexample), not a zero contribution. -/
theorem C8_kernels_agree_exact (sqrtf : ℚ → ℚ) (infVal : ℚ)
    (state : List ℚ) (n : ℕ) (mu : List ℚ)
    (hd : ∀ i j, i < n → j < n → i ≠ j → dSq state i j ≠ 0)
    (hsq : ∀ i j, i < n → j < n → i ≠ j →
      sqrtf (dSq state i j) * sqrtf (dSq state i j) = dSq state i j) :
    point_mass_numpy sqrtf infVal state n mu =
      point_mass_numba sqrtf state n mu := by
  apply List.ext_getElem
    (by rw [point_mass_numpy_length, point_mass_numba_length])
  intro k hk1 hk2
  have hk6 : k < 6 * n := by rwa [point_mass_numpy_length] at hk1
  rw [← List.getD_eq_getElem _ 0 hk1, ← List.getD_eq_getElem _ 0 hk2]
  rcases Nat.lt_or_ge k (3 * n) with hvel | hge
  · rw [point_mass_numpy_getD_vel sqrtf infVal state n mu k hvel]
    rw [point_mass_numba]
    rw [getD_applyBumps _ _ k (by simp; omega)]
    have hmem : ∀ p ∈ (((List.range n).map (fun i =>
        (List.range' (i + 1) (n - (i + 1))).map
          (numbaPairBumps sqrtf state n mu i))).flatten.flatten),
        3 * n ≤ p.1 := by
      intro p hp
      rw [List.mem_flatten] at hp
      obtain ⟨l, hl, hpl⟩ := hp
      rw [List.mem_flatten] at hl
      obtain ⟨ll, hll, hlll⟩ := hl
      obtain ⟨i, hi, rfl⟩ := List.mem_map.mp hll
      obtain ⟨j, hj, rfl⟩ := List.mem_map.mp hlll
      simp only [numbaPairBumps, List.mem_cons, List.not_mem_nil,
        or_false] at hpl
      rcases hpl with rfl | rfl | rfl | rfl | rfl | rfl <;> simp
    have hzero : ((((List.range n).map (fun i =>
        (List.range' (i + 1) (n - (i + 1))).map
          (numbaPairBumps sqrtf state n mu i))).flatten.flatten).map
            (fun p => if p.1 = k then p.2 else 0)).sum = 0 := by
      refine List.sum_eq_zero ?_
      intro x hx
      obtain ⟨p, hp, rfl⟩ := List.mem_map.mp hx
      rw [if_neg]
      intro hc
      have := hmem p hp
      omega
    rw [hzero, add_zero]
    have hrhs : ((List.range (3 * n)).map
        (fun k => state.getD (k + 3 * n) 0) ++
        List.replicate (3 * n) (0 : ℚ)).getD k 0 =
        state.getD (k + 3 * n) 0 := by
      rw [List.getD_eq_getElem?_getD, List.getElem?_append_left
        (by simpa using hvel), ← List.getD_eq_getElem?_getD]
      exact getD_map_range (3 * n) _ k 0 hvel
    rw [hrhs]
    exact congrArg (fun i => state.getD i 0) (Nat.add_comm (3 * n) k)
  · have hb : (k - 3 * n) / 3 < n := by omega
    have hc : (k - 3 * n) % 3 < 3 := by omega
    have hk' : k = 3 * n + ((3 * ((k - 3 * n) / 3)) + ((k - 3 * n) % 3)) := by
      omega
    have hnp := point_mass_numpy_getD_acc sqrtf infVal state n mu
      ((k - 3 * n) / 3) ((k - 3 * n) % 3) hb hc
    have hnb := point_mass_numba_getD_acc sqrtf state n mu
      ((k - 3 * n) / 3) ((k - 3 * n) % 3) hb hc
    rw [show 3 * n + 3 * ((k - 3 * n) / 3) + (k - 3 * n) % 3 =
      3 * n + (3 * ((k - 3 * n) / 3) + (k - 3 * n) % 3) from by omega] at hnb
    rw [hk', hnp, hnb]
    set b := (k - 3 * n) / 3 with hbdef
    set c := (k - 3 * n) % 3 with hcdef
    have hA : ∀ t ∈ Finset.range (n - (b + 1)),
        ((numbaPairBumps sqrtf state n mu b (b + 1 + t)).getD c (0, 0)).2 =
        (state.getD (3 * (b + 1 + t) + c) 0 - state.getD (3 * b + c) 0) *
          (mu.getD (b + 1 + t) 0 * (1 / (dSq state b (b + 1 + t) *
            sqrtf (dSq state b (b + 1 + t))))) := by
      intro t ht
      have htn : b + 1 + t < n := by
        have := Finset.mem_range.mp ht
        omega
      exact numba_pair_val_A sqrtf state n mu b (b + 1 + t) c hc
        (hd b (b + 1 + t) hb htn (by omega))
        (hsq b (b + 1 + t) hb htn (by omega))
    have hB : ∀ i ∈ Finset.range b,
        ((numbaPairBumps sqrtf state n mu i b).getD (3 + c) (0, 0)).2 =
        (state.getD (3 * i + c) 0 - state.getD (3 * b + c) 0) *
          (mu.getD i 0 * (1 / (dSq state b i * sqrtf (dSq state b i)))) := by
      intro i hi
      have hib : i < b := Finset.mem_range.mp hi
      exact numba_pair_val_B sqrtf state n mu i b c hc
        (hd b i hb (by omega) (by omega))
        (hsq b i hb (by omega) (by omega))
    rw [Finset.sum_congr rfl hA, Finset.sum_congr rfl hB]
    rw [Finset.range_eq_Ico, ← Finset.sum_Ico_consecutive _
      (Nat.zero_le b) (le_of_lt hb), Finset.sum_eq_sum_Ico_succ_bot hb]
    have hdiag : (state.getD (3 * b + c) 0 - state.getD (3 * b + c) 0) *
        (mu.getD b 0 * (1 / ((if b = b then infVal else dSq state b b) *
          sqrtf (if b = b then infVal else dSq state b b)))) = 0 := by
      rw [sub_self, zero_mul]
    rw [hdiag, zero_add]
    have hIco : ∀ j ∈ Finset.Ico 0 b,
        (state.getD (3 * j + c) 0 - state.getD (3 * b + c) 0) *
          (mu.getD j 0 * (1 / ((if b = j then infVal else dSq state b j) *
            sqrtf (if b = j then infVal else dSq state b j)))) =
        (state.getD (3 * j + c) 0 - state.getD (3 * b + c) 0) *
          (mu.getD j 0 * (1 / (dSq state b j * sqrtf (dSq state b j)))) := by
      intro j hj
      have : j < b := (Finset.mem_Ico.mp hj).2
      rw [if_neg (by omega)]
    have hIco2 : ∀ j ∈ Finset.Ico (b + 1) n,
        (state.getD (3 * j + c) 0 - state.getD (3 * b + c) 0) *
          (mu.getD j 0 * (1 / ((if b = j then infVal else dSq state b j) *
            sqrtf (if b = j then infVal else dSq state b j)))) =
        (state.getD (3 * j + c) 0 - state.getD (3 * b + c) 0) *
          (mu.getD j 0 * (1 / (dSq state b j * sqrtf (dSq state b j)))) := by
      intro j hj
      have : b + 1 ≤ j := (Finset.mem_Ico.mp hj).1
      rw [if_neg (by omega)]
    rw [Finset.sum_congr rfl hIco, Finset.sum_congr rfl hIco2]
    rw [Finset.sum_Ico_eq_sum_range]
    rw [← Finset.range_eq_Ico]
    rw [Finset.sum_Ico_eq_sum_range]
    ring

/-- Closed instance of C8 amended: two bodies at distance 3, with a square
root function correct at the only squared distance that occurs. -/
theorem C8_kernels_agree_exact_witness :
    point_mass_numpy (fun q : ℚ => if q = 9 then 3 else 0) 0
        ([0, 0, 0, 1, 2, 2, 0, 0, 0, 0, 0, 0] : List ℚ) 2 [5, 7] =
      point_mass_numba (fun q : ℚ => if q = 9 then 3 else 0)
        ([0, 0, 0, 1, 2, 2, 0, 0, 0, 0, 0, 0] : List ℚ) 2 [5, 7] :=
  C8_kernels_agree_exact (fun q : ℚ => if q = 9 then 3 else 0) 0
    ([0, 0, 0, 1, 2, 2, 0, 0, 0, 0, 0, 0] : List ℚ) 2 [5, 7]
    (by
      intro i j hi hj hij
      interval_cases i <;> interval_cases j <;>
        first
        | exact absurd rfl hij
        | norm_num [dSq, List.getD_cons_zero, List.getD_cons_succ])
    (by
      intro i j hi hj hij
      interval_cases i <;> interval_cases j <;>
        first
        | exact absurd rfl hij
        | norm_num [dSq, List.getD_cons_zero, List.getD_cons_succ])
